import Mathlib

/-!
Shallow embedding of the core-text-runs pipeline (src/src/lib.rs).

Text is modelled as a list of Unicode scalar values (`List Nat`), matching a
Rust `String` viewed as a sequence of `char`s.  Results of the external
Core Text / Core Foundation / HarfBuzz calls are modelled as explicit input
data carried by `CTFrame` and `HBResponse` values; every null-check the Rust
code performs corresponds to a reachable value of the model.
-/

/-- Rust `char::encode_utf16` for one scalar value: scalars below `0x10000`
are one code unit, larger scalars become a surrogate pair. -/
def encodeUtf16Char (c : Nat) : List Nat :=
  if c < 0x10000 then [c]
  else [0xD800 + (c - 0x10000) / 0x400, 0xDC00 + (c - 0x10000) % 0x400]

/-- Rust `str::encode_utf16` over a whole string. -/
def encodeUtf16 (s : List Nat) : List Nat :=
  s.flatMap encodeUtf16Char

/-- Rust `String::from_utf16`: decode a list of 16-bit code units, pairing
surrogates; `none` on a lone or out-of-order surrogate. -/
def decodeUtf16 : List Nat → Option (List Nat)
  | [] => some []
  | [u] =>
    if u < 0xD800 ∨ 0xDFFF < u then some [u] else none
  | u :: u2 :: rest =>
    if u < 0xD800 ∨ 0xDFFF < u then
      (decodeUtf16 (u2 :: rest)).map (fun s => u :: s)
    else if u ≤ 0xDBFF then
      if 0xDC00 ≤ u2 ∧ u2 ≤ 0xDFFF then
        (decodeUtf16 rest).map
          (fun s => (0x10000 + (u - 0xD800) * 0x400 + (u2 - 0xDC00)) :: s)
      else none
    else none

/-- Rust `str::from_utf8` / `CStr::to_str` validation and decoding: strict
UTF-8 (rejects overlong forms, surrogates and scalars above `0x10FFFF`),
returning the scalar-value sequence, or `none` for invalid input. -/
def utf8Decode : List Nat → Option (List Nat)
  | [] => some []
  | b :: rest =>
    if b < 0x80 then
      (utf8Decode rest).map (fun s => b :: s)
    else if b < 0xC2 then none
    else if b ≤ 0xDF then
      match rest with
      | c1 :: rest1 =>
        if 0x80 ≤ c1 ∧ c1 ≤ 0xBF then
          (utf8Decode rest1).map (fun s => ((b - 0xC0) * 0x40 + (c1 - 0x80)) :: s)
        else none
      | [] => none
    else if b ≤ 0xEF then
      match rest with
      | c1 :: c2 :: rest2 =>
        if (if b = 0xE0 then 0xA0 else 0x80) ≤ c1 ∧
            c1 ≤ (if b = 0xED then 0x9F else 0xBF) ∧
            0x80 ≤ c2 ∧ c2 ≤ 0xBF then
          (utf8Decode rest2).map
            (fun s => ((b - 0xE0) * 0x1000 + (c1 - 0x80) * 0x40 + (c2 - 0x80)) :: s)
        else none
      | _ => none
    else if b ≤ 0xF4 then
      match rest with
      | c1 :: c2 :: c3 :: rest3 =>
        if (if b = 0xF0 then 0x90 else 0x80) ≤ c1 ∧
            c1 ≤ (if b = 0xF4 then 0x8F else 0xBF) ∧
            0x80 ≤ c2 ∧ c2 ≤ 0xBF ∧ 0x80 ≤ c3 ∧ c3 ≤ 0xBF then
          (utf8Decode rest3).map
            (fun s => ((b - 0xF0) * 0x40000 + (c1 - 0x80) * 0x1000 +
                        (c2 - 0x80) * 0x40 + (c3 - 0x80)) :: s)
        else none
      | _ => none
    else none

/-- Rust `isize as usize` cast: two's-complement reinterpretation mod 2^64. -/
def usizeCast (i : Int) : Nat := (i % (2 ^ 64 : Int)).toNat

/-- The UTF-16 index-to-text mapping inlined in `collect_runs`
(src/src/lib.rs lines 292-300): bounds-check the slice, decode it, and fall
back to the empty string on out-of-range bounds or a slice that is not valid
UTF-16. -/
def utf16RangeToText (utf16 : List Nat) (start len : Nat) : List Nat :=
  if start + len ≤ utf16.length then
    match decodeUtf16 ((utf16.drop start).take len) with
    | some s => s
    | none => []
  else []

/-- Helper for substring search: does `pat` occur at the head of the list. -/
def listStartsWith : List Char → List Char → Bool
  | _, [] => true
  | [], _ :: _ => false
  | c :: cs, p :: ps => c == p && listStartsWith cs ps

/-- Helper for substring search: does `pat` occur anywhere in the list. -/
def listHasSub : List Char → List Char → Bool
  | [], pat => listStartsWith [] pat
  | c :: rest, pat => listStartsWith (c :: rest) pat || listHasSub rest pat

/-- Rust `str::contains` with a string pattern: substring occurrence. -/
def strContains (s pat : String) : Bool := listHasSub s.data pat.data

/-- ASCII lower-casing of one character. -/
def lowerChar (c : Char) : Char :=
  if 65 ≤ c.toNat ∧ c.toNat ≤ 90 then Char.ofNat (c.toNat + 32) else c

/-- Modelled from the claim's words (C4): case-insensitive substring test,
used only to compare the claim's reading against the code's `chooseScript`. -/
def specContainsCI (s pat : String) : Bool :=
  listHasSub (s.data.map lowerChar) (pat.data.map lowerChar)

/-- HarfBuzz script tag as far as this program distinguishes them. -/
inductive Script where
  | common
  | latin
deriving DecidableEq

/-- Script selection from src/src/lib.rs lines 583-591: `HB_SCRIPT_COMMON`
when the font name contains `"Emoji"` or `"emoji"`, else `HB_SCRIPT_LATIN`. -/
def chooseScript (font_name : String) : Script :=
  if strContains font_name "Emoji" || strContains font_name "emoji" then
    Script.common
  else
    Script.latin

/-- One CTRun as observed through the external calls the code makes on it
(src/src/lib.rs lines 157-200): its reported UTF-16 range, whether
`CTRunGetAttributes` returned null, the `CFDictionaryGetValue` font pointer
(0 = null), the `CFRetain` result on that pointer (0 = null), and the
`CTFontCopyPostScriptName` result (`none` = null). -/
structure CTRunObj where
  location : Int
  length : Int
  attrsNull : Bool
  fontPtr : Nat
  retainResult : Nat
  psName : Option String
deriving DecidableEq

/-- One CTLine: `CTLineGetGlyphRuns` result (`none` = null array), whose
elements may themselves be null. -/
structure CTLineObj where
  runs : Option (List (Option CTRunObj))
deriving DecidableEq

/-- A CTFrame: `CTFrameGetLines` result (`none` = null array), whose
elements may themselves be null. -/
structure CTFrame where
  lines : Option (List (Option CTLineObj))
deriving DecidableEq

/-- `RunRaw` from src/src/lib.rs lines 109-114. -/
structure RunRaw where
  utf16_location : Int
  utf16_length : Int
  postscript_name : String
  font_ptr : Nat
deriving DecidableEq

/-- `TextRun` from src/src/lib.rs lines 57-68 (text as scalar values). -/
structure TextRun where
  text : List Nat
  font_name : String
  start_utf16 : Nat
  length_utf16 : Nat
  font_ptr : Nat
deriving DecidableEq

/-- `ShapingResult` from src/src/lib.rs lines 71-80. -/
structure ShapingResult where
  run_text : List Nat
  font_name : String
  glyph_count : Nat
  glyph_ids : List Nat
  cluster_indices : List Nat
  x_advances : List Int
  y_advances : List Int
deriving DecidableEq

/-- One entry of the glyph-info / glyph-position arrays HarfBuzz reports. -/
structure HBGlyph where
  codepoint : Nat
  cluster : Nat
  xAdvance : Int
  yAdvance : Int
deriving DecidableEq

/-- Results of the HarfBuzz calls made while shaping one run
(src/src/lib.rs lines 542-612): whether `hb_coretext_font_create` returned
null, whether `hb_buffer_create` returned null, whether
`hb_buffer_get_glyph_infos` / `hb_buffer_get_glyph_positions` returned null,
and the glyph array contents (whose length is the reported glyph count). -/
structure HBResponse where
  hbFontNull : Bool
  bufferNull : Bool
  infosNull : Bool
  positionsNull : Bool
  glyphs : List HBGlyph
deriving DecidableEq

/-- `text.encode_utf16().count() as isize` (src/src/lib.rs line 142). -/
def utf16Total (text : List Nat) : Int :=
  ((encodeUtf16 text).length : Int)

/-- The per-run body of the loop in `collect_runs_from_frame`
(src/src/lib.rs lines 163-207): the range check, the attributes null check,
the font-pointer null check, the `CFRetain` null check, and the PostScript
name checks, in source order; `none` means the run is skipped. -/
def collect_run_step (total : Int) (r : CTRunObj) : Option RunRaw :=
  if r.location < 0 ∨ r.length < 0 ∨ r.location + r.length > total then none
  else if r.attrsNull then none
  else if r.fontPtr = 0 then none
  else if r.retainResult = 0 then none
  else
    match r.psName with
    | none => none
    | some n => if n = "" then none
        else some ⟨r.location, r.length, n, r.retainResult⟩

/-- The run objects a frame walk visits, in line order then run order,
skipping null lines, null run arrays and null run elements
(src/src/lib.rs lines 137-161). -/
def frameRuns (f : CTFrame) : List CTRunObj :=
  match f.lines with
  | none => []
  | some ls =>
    ((ls.filterMap id).map (fun l => (l.runs.getD []).filterMap id)).flatten

/-- `collect_runs_from_frame` (src/src/lib.rs lines 117-213). -/
def collect_runs_from_frame (text : List Nat) (f : CTFrame) : List RunRaw :=
  (frameRuns f).filterMap (collect_run_step (utf16Total text))

/-- The `RunRaw` to `TextRun` conversion in `collect_runs`
(src/src/lib.rs lines 287-309).  The `as usize` casts are `Int.toNat`: the
collector's range check guarantees both fields are nonnegative. -/
def raw_to_text_run (utf16 : List Nat) (raw : RunRaw) : TextRun :=
  { text := utf16RangeToText utf16 raw.utf16_location.toNat raw.utf16_length.toNat
    font_name := raw.postscript_name
    start_utf16 := raw.utf16_location.toNat
    length_utf16 := raw.utf16_length.toNat
    font_ptr := raw.font_ptr }

/-- `collect_runs` (src/src/lib.rs lines 216-312), with the frame the
external layout service produced passed explicitly (the font size only
affects that external service). -/
def collect_runs (text : List Nat) (f : CTFrame) : List TextRun :=
  (collect_runs_from_frame text f).map (raw_to_text_run (encodeUtf16 text))

/-- `shape_run_with_harfbuzz` (src/src/lib.rs lines 521-647): the null-font
sentinel check, wrapper creation, buffer creation, the `CString::new`
embedded-NUL check, the null-array / zero-glyph-count check, then extraction
of the four parallel arrays. -/
def shape_run_with_harfbuzz (resp : HBResponse) (run : TextRun) :
    Option ShapingResult :=
  if run.font_ptr = 0 then none
  else if resp.hbFontNull then none
  else if resp.bufferNull then none
  else if run.text.contains 0 then none
  else if resp.infosNull ∨ resp.positionsNull ∨ resp.glyphs.length = 0 then none
  else
    some { run_text := run.text
           font_name := run.font_name
           glyph_count := resp.glyphs.length
           glyph_ids := resp.glyphs.map (fun g => g.codepoint)
           cluster_indices := resp.glyphs.map (fun g => g.cluster)
           x_advances := resp.glyphs.map (fun g => g.xAdvance)
           y_advances := resp.glyphs.map (fun g => g.yAdvance) }

/-- `split_and_shape_text` (src/src/lib.rs lines 651-691): parse the C
string (invalid UTF-8 falls back to the empty string via `unwrap_or`),
collect runs from the layout of the parsed text, and shape each run; one
output entry per run, `none` marking a failed shaping.  `layout` models the
external framesetter and `resps` the HarfBuzz responses per run index. -/
def split_and_shape_text (layout : List Nat → CTFrame)
    (resps : Nat → HBResponse) (bytes : List Nat) :
    List (Option ShapingResult) :=
  let text := (utf8Decode bytes).getD []
  let runs := collect_runs text (layout text)
  runs.enum.map (fun p => shape_run_with_harfbuzz (resps p.1) p.2)

/-- The per-run display record of `split_str_into_runs_impl`
(src/src/lib.rs lines 437-513): the decoded run text (note the `as usize`
casts here are unguarded, hence `usizeCast`) and the reported font name with
its `"(no font)"` / `"(null)"` placeholders. -/
def runDisplay (utf16 : List Nat) (r : CTRunObj) : List Nat × String :=
  (utf16RangeToText utf16 (usizeCast r.location) (usizeCast r.length),
    if r.attrsNull ∨ r.fontPtr = 0 then "(no font)"
    else
      match r.psName with
      | none => "(null)"
      | some n => n)

/-- `split_str_into_runs` / `split_str_into_runs_impl`
(src/src/lib.rs lines 94-106 and 314-517): parse the C string with the same
`unwrap_or("")` fallback and report one record per run of the frame. -/
def split_str_into_runs (layout : List Nat → CTFrame) (bytes : List Nat) :
    List (List Nat × String) :=
  let text := (utf8Decode bytes).getD []
  (frameRuns (layout text)).map (runDisplay (encodeUtf16 text))

/-- Number of successful `CFRetain` acquisitions the collector performs for
one run object: 1 exactly when control reaches line 186 of src/src/lib.rs
and the retain returns non-null, regardless of the later PostScript-name
outcome. -/
def run_retain_count (total : Int) (r : CTRunObj) : Nat :=
  if r.location < 0 ∨ r.length < 0 ∨ r.location + r.length > total then 0
  else if r.attrsNull then 0
  else if r.fontPtr = 0 then 0
  else if r.retainResult = 0 then 0
  else 1

/-- Total font-handle acquisitions during `collect_runs_from_frame`. -/
def frame_retain_count (text : List Nat) (f : CTFrame) : Nat :=
  ((frameRuns f).map (run_retain_count (utf16Total text))).sum

/-- Number of `CFRelease(ct_font_ptr)` calls `shape_run_with_harfbuzz`
performs, spelled out path by path (src/src/lib.rs lines 527-635): zero on
the null-sentinel path, one on every other path. -/
def shape_release_count (resp : HBResponse) (run : TextRun) : Nat :=
  if run.font_ptr = 0 then 0
  else if resp.hbFontNull then 1
  else if resp.bufferNull then 1
  else if run.text.contains 0 then 1
  else if resp.infosNull ∨ resp.positionsNull ∨ resp.glyphs.length = 0 then 1
  else 1

/-- Total font-handle releases during a full `split_and_shape_text` call on
an already-parsed text. -/
def pipeline_release_count (text : List Nat) (f : CTFrame)
    (resps : Nat → HBResponse) : Nat :=
  (((collect_runs text f).enum.map
      (fun p => shape_release_count (resps p.1) p.2))).sum

/-- A list of `(start, length)` pairs tiles the interval from `s` to `e`:
each segment starts where the previous one ended, has positive length, and
the last one ends at `e` (integer version). -/
def tilesInt : Int → List (Int × Int) → Int → Bool
  | s, [], e => s == e
  | s, p :: rest, e => (p.1 == s) && decide (1 ≤ p.2) && tilesInt (s + p.2) rest e

/-- A list of `(start, length)` pairs tiles the interval from `s` to `e`
(natural-number version, for emitted `TextRun` ranges). -/
def tilesNat : Nat → List (Nat × Nat) → Nat → Bool
  | s, [], e => s == e
  | s, p :: rest, e => (p.1 == s) && decide (1 ≤ p.2) && tilesNat (s + p.2) rest e

/-- A run object as a well-behaved layout service reports it: attributes
present, a non-null font whose retain returns the same handle, and a
non-null, nonempty PostScript name. -/
def runObjWF (r : CTRunObj) : Bool :=
  !r.attrsNull && r.fontPtr != 0 && r.retainResult == r.fontPtr &&
    (match r.psName with
     | none => false
     | some n => n != "")

/-- Every line, run array and run element of the frame is present and each
run object is well behaved. -/
def framePresent (f : CTFrame) : Bool :=
  match f.lines with
  | none => false
  | some ls => ls.all fun ol =>
      match ol with
      | none => false
      | some l =>
        match l.runs with
        | none => false
        | some rs => rs.all fun o =>
            match o with
            | none => false
            | some r => runObjWF r

/-- A frame is well formed for `text` when it is fully present and its run
ranges, in document order, tile `[0, total_units)` with positive lengths —
the shape the external layout service actually produces. -/
def frameWF (text : List Nat) (f : CTFrame) : Bool :=
  framePresent f &&
    tilesInt 0 ((frameRuns f).map (fun r => (r.location, r.length)))
      (utf16Total text)

/-- The `RunRaw` that `collect_run_step` emits when none of its checks
fire. -/
def toRaw (r : CTRunObj) : RunRaw :=
  ⟨r.location, r.length, r.psName.getD "", r.retainResult⟩

/-- Sample run object accepted by every collector check. -/
def sampleRunOK : CTRunObj := ⟨0, 1, false, 5, 5, some "Helvetica"⟩

/-- Sample one-line, one-run frame built from `sampleRunOK`. -/
def sampleFrame : CTFrame := ⟨some [some ⟨some [some sampleRunOK]⟩]⟩

/-- The `TextRun` that `collect_runs` emits for `sampleFrame` over the
one-character text `[104]`. -/
def sampleTextRun : TextRun := ⟨[104], "Helvetica", 0, 1, 5⟩

/-- Sample HarfBuzz response: every call succeeds and one glyph comes
back. -/
def okResp : HBResponse := ⟨false, false, false, false, [⟨65, 0, 10, 0⟩]⟩

/-- The shaping result produced from `okResp` and `sampleTextRun`. -/
def okResult : ShapingResult := ⟨[104], "Helvetica", 1, [65], [0], [10], [0]⟩

/-- An all-failure HarfBuzz response (no glyphs). -/
def noneResp : HBResponse := ⟨false, false, false, false, []⟩

/-- Run object whose font yields an empty PostScript name: the collector
retains its font and then discards the run. -/
def leakRun : CTRunObj := ⟨0, 1, false, 9, 9, some ""⟩

/-- Frame containing only `leakRun`. -/
def leakFrame : CTFrame := ⟨some [some ⟨some [some leakRun]⟩]⟩

/-- Run object whose font yields a null PostScript name: discarded, leaving
a coverage gap. -/
def gapRun : CTRunObj := ⟨0, 1, false, 7, 7, none⟩

/-- Frame containing only `gapRun`. -/
def gapFrame : CTFrame := ⟨some [some ⟨some [some gapRun]⟩]⟩

/-- Run object reporting a zero-length range over the empty text; valid for
every collector check. -/
def zeroRun : CTRunObj := ⟨0, 0, false, 3, 3, some "F"⟩

/-- Frame containing only `zeroRun`. -/
def zeroFrame : CTFrame := ⟨some [some ⟨some [some zeroRun]⟩]⟩

/-- Frame with an empty (but present) line array. -/
def emptyFrame : CTFrame := ⟨some []⟩

/-- Run object on which the modelled `CFRetain` reports failure (null)
while every condition the claim lists holds. -/
def retainFailRun : CTRunObj := ⟨0, 1, false, 5, 0, some "F"⟩

/-- Helper: what an accepted run of `collect_run_step` guarantees — a
nonnegative in-bounds range carried over unchanged, a nonzero retained font
pointer and a nonempty PostScript name. -/
theorem collect_run_step_some_spec (total : Int) (r : CTRunObj) (raw : RunRaw)
    (h : collect_run_step total r = some raw) :
    0 ≤ r.location ∧ 0 ≤ r.length ∧ r.location + r.length ≤ total ∧
      raw.utf16_location = r.location ∧ raw.utf16_length = r.length ∧
      raw.font_ptr ≠ 0 ∧ raw.postscript_name ≠ "" := by
  unfold collect_run_step at h
  split_ifs at h with h1 h2 h3 h4
  push_neg at h1
  rcases hps : r.psName with _ | n <;> simp only [hps] at h
  · cases h
  · split_ifs at h with h5
    injection h with h6
    subst h6
    exact ⟨by omega, by omega, by omega, rfl, rfl, h4, h5⟩

/-- Helper: every emitted `TextRun` arises from some frame run object that
`collect_run_step` accepted. -/
theorem mem_collect_runs_spec (text : List Nat) (f : CTFrame) (run : TextRun)
    (h : run ∈ collect_runs text f) :
    ∃ r raw, r ∈ frameRuns f ∧
      collect_run_step (utf16Total text) r = some raw ∧
      run = raw_to_text_run (encodeUtf16 text) raw := by
  unfold collect_runs at h
  rcases List.mem_map.mp h with ⟨raw, hraw, hconv⟩
  unfold collect_runs_from_frame at hraw
  rcases List.mem_filterMap.mp hraw with ⟨r, hr, hstep⟩
  exact ⟨r, raw, hr, hstep, hconv.symm⟩

/-- C4 (amended): the script tag chosen in shaping is the common script
exactly when the font name contains the exact substring `"Emoji"` or the
exact substring `"emoji"`, and Latin otherwise; other casings such as
`"EMOJI"` are not matched. -/
theorem chooseScript_common_iff (name : String) :
    chooseScript name = Script.common ↔
      (strContains name "Emoji" = true ∨ strContains name "emoji" = true) := by
  unfold chooseScript
  split <;> rename_i h <;> simp_all

/-- C4 counterexample: the font name `"EMOJI"` contains `"Emoji"` under a
case-insensitive comparison, yet the code chooses the Latin script, so the
claimed case-insensitive rule is false. -/
theorem chooseScript_case_cex :
    chooseScript "EMOJI" = Script.latin ∧ specContainsCI "EMOJI" "Emoji" = true := by
  decide

/-- C5 (amended): run collection discards a run exactly when its range has
location < 0, length < 0 or location+length > total; or its attribute
dictionary is null; or the dictionary has no font; or the extra retain of
the font reports failure (null); or the PostScript name cannot be obtained
or is empty.  Every other run is emitted. -/
theorem collect_run_discard_iff (total : Int) (r : CTRunObj) :
    collect_run_step total r = none ↔
      (r.location < 0 ∨ r.length < 0 ∨ r.location + r.length > total ∨
        r.attrsNull = true ∨ r.fontPtr = 0 ∨ r.retainResult = 0 ∨
        r.psName = none ∨ r.psName = some "") := by
  unfold collect_run_step
  rcases hps : r.psName with _ | n <;> simp only [hps]
  · split_ifs with h1 h2 h3 h4 <;> simp_all
  · split_ifs with h1 h2 h3 h4 h5 <;> simp_all
    all_goals tauto

/-- C5 counterexample: a run with a valid range, an attribute set carrying
a font, and an obtainable nonempty PostScript name is still discarded when
the modelled `CFRetain` returns null — a discard cause the claim's list
does not contain, so its `exactly when` is false. -/
theorem collect_run_discard_cex :
    collect_run_step 1 retainFailRun = none ∧
      ¬ (retainFailRun.location < 0 ∨ retainFailRun.length < 0 ∨
          retainFailRun.location + retainFailRun.length > 1) ∧
      retainFailRun.attrsNull = false ∧ retainFailRun.fontPtr ≠ 0 ∧
      retainFailRun.psName = some "F" ∧ ("F" : String) ≠ "" := by
  decide

/-- C6: whenever shaping returns a result, the four glyph sequences all
have length exactly `glyph_count`, and `glyph_count` is positive. -/
theorem shape_result_consistent (resp : HBResponse) (run : TextRun)
    (res : ShapingResult) (h : shape_run_with_harfbuzz resp run = some res) :
    res.glyph_ids.length = res.glyph_count ∧
      res.cluster_indices.length = res.glyph_count ∧
      res.x_advances.length = res.glyph_count ∧
      res.y_advances.length = res.glyph_count ∧ 0 < res.glyph_count := by
  unfold shape_run_with_harfbuzz at h
  split_ifs at h with h1 h2 h3 h4 h5
  injection h with h6
  subst h6
  push_neg at h5
  exact ⟨by simp, by simp, by simp, by simp, Nat.pos_of_ne_zero h5.2.2⟩

/-- Witness for C6 at a concrete successful shaping call. -/
theorem shape_result_consistent_witness :
    okResult.glyph_ids.length = okResult.glyph_count ∧
      okResult.cluster_indices.length = okResult.glyph_count ∧
      okResult.x_advances.length = okResult.glyph_count ∧
      okResult.y_advances.length = okResult.glyph_count ∧ 0 < okResult.glyph_count :=
  shape_result_consistent okResp sampleTextRun okResult (by decide)

/-- C7: shaping a run returns `none` exactly when the font handle is the
null sentinel, the engine font wrapper or buffer cannot be created, the run
text contains an embedded NUL, or shaping reports null glyph arrays or a
zero glyph count; and no failure escalates beyond the affected run — the
orchestrator still yields one entry per collected run. -/
theorem shape_failure_modes (resp : HBResponse) (run : TextRun) :
    (shape_run_with_harfbuzz resp run = none ↔
      (run.font_ptr = 0 ∨ resp.hbFontNull = true ∨ resp.bufferNull = true ∨
        run.text.contains 0 = true ∨ resp.infosNull = true ∨
        resp.positionsNull = true ∨ resp.glyphs.length = 0)) ∧
    ∀ (layout : List Nat → CTFrame) (resps : Nat → HBResponse) (bytes : List Nat),
      (split_and_shape_text layout resps bytes).length =
        (collect_runs ((utf8Decode bytes).getD [])
          (layout ((utf8Decode bytes).getD []))).length := by
  constructor
  · unfold shape_run_with_harfbuzz
    split_ifs with h1 h2 h3 h4 h5 <;> simp_all
  · intro layout resps bytes
    simp [split_and_shape_text, List.enum_length]

/-- C8: when the requested slice exceeds the encoded length, or the slice
does not decode as valid UTF-16, the index-mapping step returns the empty
string instead of failing. -/
theorem utf16RangeToText_defensive (utf16 : List Nat) (start len : Nat) :
    (utf16.length < start + len → utf16RangeToText utf16 start len = []) ∧
    (decodeUtf16 ((utf16.drop start).take len) = none →
      utf16RangeToText utf16 start len = []) := by
  constructor
  · intro h
    unfold utf16RangeToText
    rw [if_neg (by omega)]
  · intro h
    unfold utf16RangeToText
    split_ifs with hb
    · rw [h]
    · rfl

/-- Witness for C8: an out-of-bounds slice and a lone-surrogate slice both
map to the empty string. -/
theorem utf16RangeToText_defensive_witness :
    utf16RangeToText [104] 1 1 = [] ∧ utf16RangeToText [0xD800] 0 1 = [] :=
  ⟨(utf16RangeToText_defensive [104] 1 1).1 (by decide),
   (utf16RangeToText_defensive [0xD800] 0 1).2 (by decide)⟩

/-- C9: every run emitted by `collect_runs` has a nonzero font handle and a
nonempty font name, so the null-sentinel rejection at the start of
`shape_run_with_harfbuzz` is unreachable for collected runs. -/
theorem collect_runs_font_valid (text : List Nat) (f : CTFrame) (run : TextRun)
    (h : run ∈ collect_runs text f) :
    run.font_ptr ≠ 0 ∧ run.font_name ≠ "" := by
  rcases mem_collect_runs_spec text f run h with ⟨r, raw, _, hstep, hconv⟩
  rcases collect_run_step_some_spec _ _ _ hstep with ⟨_, _, _, _, _, hp, hn⟩
  subst hconv
  exact ⟨hp, hn⟩

/-- Witness for C9 at a concrete emitted run. -/
theorem collect_runs_font_valid_witness :
    sampleTextRun.font_ptr ≠ 0 ∧ sampleTextRun.font_name ≠ "" :=
  collect_runs_font_valid [104] sampleFrame sampleTextRun (by decide)

/-- C3: for every emitted run, the run's `text` field equals the string
obtained by encoding the source to UTF-16, slicing
`[start_utf16, start_utf16+length_utf16)` and decoding that slice. -/
theorem collect_runs_text_roundtrip (text : List Nat) (f : CTFrame)
    (run : TextRun) (s : List Nat) (h : run ∈ collect_runs text f)
    (hs : decodeUtf16 (((encodeUtf16 text).drop run.start_utf16).take
        run.length_utf16) = some s) :
    run.text = s := by
  rcases mem_collect_runs_spec text f run h with ⟨r, raw, _, hstep, hconv⟩
  rcases collect_run_step_some_spec _ _ _ hstep with ⟨hl0, hn0, hle, hls, hll, _, _⟩
  subst hconv
  simp only [raw_to_text_run] at hs ⊢
  unfold utf16Total at hle
  have hb : raw.utf16_location.toNat + raw.utf16_length.toNat ≤
      (encodeUtf16 text).length := by omega
  unfold utf16RangeToText
  rw [if_pos hb, hs]

/-- Witness for C3 at a concrete emitted run. -/
theorem collect_runs_text_roundtrip_witness : sampleTextRun.text = [104] :=
  collect_runs_text_roundtrip [104] sampleFrame sampleTextRun [104]
    (by decide) (by decide)

/-- C1 (code evaluated at the failing input): on a frame whose single run
carries a font with an empty PostScript name, the collector performs one
successful retain, emits no runs, and the full pipeline therefore performs
zero releases — the acquire/release count ends at 1, not 0, contradicting
the claimed balance on the name-discard path. -/
theorem collect_leak_on_empty_psname_eval :
    frame_retain_count [104] leakFrame = 1 ∧
      collect_runs [104] leakFrame = [] ∧
      pipeline_release_count [104] leakFrame (fun _ => noneResp) = 0 := by
  decide

/-- Helper: a tiling of `[s, e)` forces `s ≤ e`. -/
theorem tilesInt_le (L : List (Int × Int)) :
    ∀ s e : Int, tilesInt s L e = true → s ≤ e := by
  induction L with
  | nil =>
    intro s e h
    simp only [tilesInt, beq_iff_eq] at h
    omega
  | cons p rest ih =>
    intro s e h
    simp only [tilesInt, Bool.and_eq_true, decide_eq_true_eq, beq_iff_eq] at h
    have := ih (s + p.2) e h.2
    omega

/-- Helper: each segment of a tiling of `[s, e)` with `0 ≤ s` lies inside
`[0, e)` and has positive length. -/
theorem tilesInt_mem_bounds (L : List (Int × Int)) :
    ∀ s e : Int, tilesInt s L e = true → 0 ≤ s →
      ∀ p ∈ L, 0 ≤ p.1 ∧ 1 ≤ p.2 ∧ p.1 + p.2 ≤ e := by
  induction L with
  | nil =>
    intro s e _ _ p hp
    cases hp
  | cons q rest ih =>
    intro s e h hs p hp
    simp only [tilesInt, Bool.and_eq_true, decide_eq_true_eq, beq_iff_eq] at h
    obtain ⟨⟨hq, h1⟩, ht⟩ := h
    rcases List.mem_cons.mp hp with rfl | hp2
    · have := tilesInt_le rest (s + p.2) e ht
      omega
    · exact ih (s + q.2) e ht (by omega) p hp2

/-- Helper: an integer tiling starting at a nonnegative point transfers to
the natural-number tiling of the `toNat` images. -/
theorem tilesInt_toNat (L : List (Int × Int)) :
    ∀ s e : Int, tilesInt s L e = true → 0 ≤ s →
      tilesNat s.toNat (L.map (fun p => (p.1.toNat, p.2.toNat))) e.toNat = true := by
  induction L with
  | nil =>
    intro s e h _
    simp only [tilesInt, beq_iff_eq] at h
    simp [tilesNat, h]
  | cons q rest ih =>
    intro s e h hs
    simp only [tilesInt, Bool.and_eq_true, decide_eq_true_eq, beq_iff_eq] at h
    obtain ⟨⟨hq, h1⟩, ht⟩ := h
    have ih2 := ih (s + q.2) e ht (by omega)
    simp only [List.map_cons, tilesNat, Bool.and_eq_true, decide_eq_true_eq,
      beq_iff_eq]
    refine ⟨⟨by omega, by omega⟩, ?_⟩
    have heq : s.toNat + q.2.toNat = (s + q.2).toNat := by omega
    rw [heq]
    exact ih2

/-- Helper: only the empty list tiles the empty interval `[0, 0)`. -/
theorem tilesInt_zero_nil (L : List (Int × Int)) (h : tilesInt 0 L 0 = true) :
    L = [] := by
  cases L with
  | nil => rfl
  | cons q rest =>
    exfalso
    simp only [tilesInt, Bool.and_eq_true, decide_eq_true_eq, beq_iff_eq] at h
    obtain ⟨⟨hq, h1⟩, ht⟩ := h
    have := tilesInt_le rest (0 + q.2) 0 ht
    omega

/-- Helper: in a fully present frame every visited run object is well
behaved. -/
theorem framePresent_runObjWF (f : CTFrame) (h : framePresent f = true) :
    ∀ r ∈ frameRuns f, runObjWF r = true := by
  intro r hr
  unfold frameRuns at hr
  unfold framePresent at h
  cases hls : f.lines with
  | none =>
    simp only [hls] at hr
    cases hr
  | some ls =>
    simp only [hls] at hr h
    rcases List.mem_flatten.mp hr with ⟨sub, hsub, hrsub⟩
    rcases List.mem_map.mp hsub with ⟨l, hl, rfl⟩
    rcases List.mem_filterMap.mp hl with ⟨ol, holm, holid⟩
    have hall := List.all_eq_true.mp h ol holm
    cases ol with
    | none => cases holid
    | some l2 =>
      have hl2 : l2 = l := by simpa using holid
      subst hl2
      cases hlr : l2.runs with
      | none => simp [hlr] at hall
      | some rs =>
        simp only [hlr, Option.getD_some] at hall hrsub
        rcases List.mem_filterMap.mp hrsub with ⟨orr, horm, horid⟩
        have hall2 := List.all_eq_true.mp hall orr horm
        cases orr with
        | none => cases horid
        | some r2 =>
          have hr2 : r2 = r := by simpa using horid
          subst hr2
          simpa using hall2

/-- Helper: a well-behaved run object with a nonnegative in-bounds range
passes every collector check. -/
theorem collect_run_step_full (total : Int) (r : CTRunObj)
    (hwf : runObjWF r = true) (h0 : 0 ≤ r.location) (h1 : 0 ≤ r.length)
    (h2 : r.location + r.length ≤ total) :
    collect_run_step total r = some (toRaw r) := by
  unfold runObjWF at hwf
  simp only [Bool.and_eq_true, Bool.not_eq_true', bne_iff_ne, beq_iff_eq] at hwf
  obtain ⟨⟨⟨ha, hf⟩, hrr⟩, hn⟩ := hwf
  unfold collect_run_step toRaw
  rw [if_neg (by omega), if_neg (by simp [ha]), if_neg hf,
    if_neg (by rw [hrr]; exact hf)]
  cases hps : r.psName with
  | none => simp [hps] at hn
  | some n =>
    simp only [hps] at hn ⊢
    rw [if_neg (by simpa using hn)]
    simp

/-- Helper: a `filterMap` that succeeds on every element is a `map`. -/
theorem filterMap_eq_map_of_some {α β : Type} (g : α → Option β) (h : α → β)
    (L : List α) (hall : ∀ x ∈ L, g x = some (h x)) :
    L.filterMap g = L.map h := by
  induction L with
  | nil => rfl
  | cons a rest ih =>
    have ha := hall a (List.mem_cons_self a rest)
    simp only [List.filterMap_cons, ha, List.map_cons]
    rw [ih (fun x hx => hall x (List.mem_cons_of_mem a hx))]

/-- C2 (amended): when the frame is well formed for the text — all its
objects present, each run's font valid with a nonempty name, and its run
ranges tiling `[0, total_units)` in document order — the emitted runs, in
order (hence sorted by `start_utf16`), tile `[0, total_units)` exactly:
no gaps, no overlaps.  For arbitrary frames a discarded run leaves a gap
(see the counterexample). -/
theorem collect_runs_coverage (text : List Nat) (f : CTFrame)
    (h : frameWF text f = true) :
    tilesNat 0 ((collect_runs text f).map
      (fun run => (run.start_utf16, run.length_utf16)))
      (encodeUtf16 text).length = true := by
  unfold frameWF at h
  simp only [Bool.and_eq_true] at h
  obtain ⟨hpres, htiles⟩ := h
  have hwf := framePresent_runObjWF f hpres
  have hbounds := tilesInt_mem_bounds _ 0 _ htiles le_rfl
  have hstep : ∀ r ∈ frameRuns f,
      collect_run_step (utf16Total text) r = some (toRaw r) := by
    intro r hr
    have hb := hbounds (r.location, r.length) (List.mem_map_of_mem _ hr)
    exact collect_run_step_full _ r (hwf r hr) hb.1
      (by have := hb.2.1; omega) hb.2.2
  have hemit : collect_runs_from_frame text f = (frameRuns f).map toRaw := by
    unfold collect_runs_from_frame
    exact filterMap_eq_map_of_some _ _ _ hstep
  have hranges : (collect_runs text f).map
      (fun run => (run.start_utf16, run.length_utf16)) =
      ((frameRuns f).map (fun r => (r.location, r.length))).map
        (fun p => (p.1.toNat, p.2.toNat)) := by
    unfold collect_runs
    rw [hemit]
    simp [List.map_map, raw_to_text_run, toRaw, Function.comp]
  rw [hranges]
  have hfin := tilesInt_toNat _ 0 _ htiles le_rfl
  simpa [utf16Total] using hfin

/-- Witness for C2 on a concrete well-formed frame. -/
theorem collect_runs_coverage_witness :
    tilesNat 0 ((collect_runs [104] sampleFrame).map
      (fun run => (run.start_utf16, run.length_utf16)))
      (encodeUtf16 [104]).length = true :=
  collect_runs_coverage [104] sampleFrame (by decide)

/-- C2 counterexample: a frame whose only run has a null PostScript name is
discarded, so the emitted runs do not cover `[0, 1)` and the claimed
unconditional partition is false. -/
theorem collect_runs_coverage_cex :
    collect_runs [104] gapFrame = [] ∧
      tilesNat 0 ((collect_runs [104] gapFrame).map
        (fun run => (run.start_utf16, run.length_utf16)))
        (encodeUtf16 [104]).length = false := by
  decide

/-- C10 (amended): when the input bytes are not valid UTF-8, both entry
points proceed with the empty string in its place, and — whenever the
layout service returns a well-formed frame for the empty string — produce
zero runs and zero shaping results, without raising an error.  A degenerate
frame reporting a zero-length run can still produce a run (see the
counterexample). -/
theorem invalid_utf8_empty_pipeline (layout : List Nat → CTFrame)
    (resps : Nat → HBResponse) (bytes : List Nat)
    (hinv : utf8Decode bytes = none) (hwf : frameWF [] (layout []) = true) :
    split_and_shape_text layout resps bytes = [] ∧
      split_str_into_runs layout bytes = [] := by
  have hruns : frameRuns (layout []) = [] := by
    unfold frameWF at hwf
    simp only [Bool.and_eq_true] at hwf
    have h0 : utf16Total [] = 0 := by decide
    rw [h0] at hwf
    have hnil := tilesInt_zero_nil _ hwf.2
    exact List.map_eq_nil_iff.mp hnil
  constructor
  · unfold split_and_shape_text
    simp [hinv, collect_runs, collect_runs_from_frame, hruns]
  · unfold split_str_into_runs
    simp [hinv, hruns]

/-- Witness for C10 at the invalid byte `0xFF` and a well-formed empty
frame. -/
theorem invalid_utf8_empty_pipeline_witness :
    split_and_shape_text (fun _ => emptyFrame) (fun _ => noneResp) [255] = [] ∧
      split_str_into_runs (fun _ => emptyFrame) [255] = [] :=
  invalid_utf8_empty_pipeline (fun _ => emptyFrame) (fun _ => noneResp) [255]
    (by decide) (by decide)

/-- C10 counterexample: on invalid UTF-8 input, a frame carrying a
zero-length run over the empty text still makes the pipeline emit one run
and one result entry, so the claimed `zero runs and zero shaping results`
is not unconditional. -/
theorem invalid_utf8_cex :
    utf8Decode [255] = none ∧
      (split_and_shape_text (fun _ => zeroFrame) (fun _ => noneResp)
        [255]).length = 1 := by
  decide
